import Mathlib

/-!
Shallow embedding of `src/app/utils/latex_generator.py` (the math/prose
classifier `is_math_block` and the document assembler pieces of
`generate_latex_document`) and of the margin logic of
`src/app/utils/pdf_parser.py` (`extract_content_from_pdf`, lines 38-98).

Modelling conventions:
* Python strings are modelled as `List Char` (with `String` wrappers for
  statements about concrete literals).  Only the ASCII fragment of Python's
  Unicode-aware predicates (`\s`, `\w`, `\d`, `str.isalpha`, `str.lower`)
  is modelled; every input appearing in the spec, the claims and the
  repository's tests is ASCII, so the restriction is harmless there.
* Python regular expressions are hand-translated into explicit scanners.
  Each scanner's doc comment names the regex it translates; alternation is
  first-match (Python `re` semantics), `findall` with a leading character
  class that contains `\` never reaches the command alternative, etc.
* Python `float` arithmetic on the small ratios used by the classifier
  (`0.6`, `0.4`, `0.8`, `0.5`, `len(words)/10`, `num_lines/2`) is modelled
  by exact integer inequalities (`eq/n >= 0.6` becomes `5*eq >= 3*n`).
  For the denominators that occur (block line counts) no rational with
  such a denominator lies within one double ulp of the literals, so the
  exact comparison agrees with the IEEE-double comparison.
* `2.54 / 72` (points to centimetres) and `0.8` (figure scaling) are the
  exact rationals `127/3600` and `8/10`.
-/

/-! ## Python string primitives -/

/-- Python's default `str.strip()` whitespace set (ASCII part):
space, tab, newline, carriage return, vertical tab, form feed.
This is also the ASCII part of the regex class `\s`. -/
def isPyWs (c : Char) : Bool :=
  c == ' ' || c == '\t' || c == '\n' || c == '\r' || c == '\x0b' || c == '\x0c'

/-- Python `str.strip()`: drop leading and trailing whitespace. -/
def pyStrip (l : List Char) : List Char :=
  ((l.dropWhile isPyWs).reverse.dropWhile isPyWs).reverse

/-- Python `str.strip(x)` for a one-character argument `x`. -/
def pyStripChar (x : Char) (l : List Char) : List Char :=
  ((l.dropWhile (· == x)).reverse.dropWhile (· == x)).reverse

/-- Python `str.lower()` (ASCII model). -/
def pyLower (l : List Char) : List Char := l.map Char.toLower

/-- Python `str.startswith(pat)` on lists. -/
def listStarts : List Char → List Char → Bool
  | [], _ => true
  | _ :: _, [] => false
  | p :: ps, c :: cs => p == c && listStarts ps cs

/-- Python `str.endswith(pat)` on lists. -/
def listEnds (pat l : List Char) : Bool := listStarts pat.reverse l.reverse

/-- Split on every character satisfying `p`, keeping empty pieces
(Python `str.split(c)` semantics for a one-character separator). -/
def splitCharP (p : Char → Bool) : List Char → List (List Char)
  | [] => [[]]
  | c :: rest =>
    if p c then [] :: splitCharP p rest
    else
      match splitCharP p rest with
      | [] => [[c]]
      | h :: t => (c :: h) :: t

/-- Python `text.split('\n')`. -/
def splitNl (l : List Char) : List (List Char) := splitCharP (· == '\n') l

/-- Python `text.split()`: whitespace-separated words, empties dropped. -/
def pyWords (l : List Char) : List (List Char) :=
  (splitCharP isPyWs l).filter (fun w => !w.isEmpty)

/-- Python `text.split('\n\n')` (the block segmenter of
`generate_latex_document`, line 269): split on non-overlapping
occurrences of two consecutive newlines, scanning left to right. -/
def splitDoubleNewline : List Char → List (List Char)
  | [] => [[]]
  | '\n' :: '\n' :: rest => [] :: splitDoubleNewline rest
  | c :: rest =>
    match splitDoubleNewline rest with
    | [] => [[c]]
    | h :: t => (c :: h) :: t

/-- Left inverse of `splitDoubleNewline`: re-join blocks with the
separator.  Used to reason about where each block sits inside the text. -/
def joinParas : List (List Char) → List Char
  | [] => []
  | [b] => b
  | b :: bs => b ++ '\n' :: '\n' :: joinParas bs

/-- Python `str.replace(pat, repl)` for a one-character pattern:
every occurrence of the character becomes `repl`. -/
def replaceChar (pat : Char) (repl : List Char) : List Char → List Char
  | [] => []
  | c :: rest => (if c == pat then repl else [c]) ++ replaceChar pat repl rest

/-- ASCII model of the regex class `\w` = `[a-zA-Z0-9_]`. -/
def isWordCharA (c : Char) : Bool := c.isAlphanum || c == '_'

/-- Python `str.isalpha()` (ASCII model): non-empty and all alphabetic. -/
def isAlphaAll (l : List Char) : Bool := !l.isEmpty && l.all Char.isAlpha

/-! ## The classifier `is_math_block` (latex_generator.py lines 5-189) -/

/-- The `explicit_env_pairs` dict of lines 12-25, in insertion order. -/
def explicitEnvPairs : List (List Char × List Char) :=
  [("$$".data, "$$".data),
   ("\\[".data, "\\]".data),
   ("\\begin\x7bequation\x7d".data, "\\end\x7bequation\x7d".data),
   ("\\begin\x7bequation*\x7d".data, "\\end\x7bequation*\x7d".data),
   ("\\begin\x7balign\x7d".data, "\\end\x7balign\x7d".data),
   ("\\begin\x7balign*\x7d".data, "\\end\x7balign*\x7d".data),
   ("\\begin\x7bgather\x7d".data, "\\end\x7bgather\x7d".data),
   ("\\begin\x7bgather*\x7d".data, "\\end\x7bgather*\x7d".data),
   ("\\begin\x7bmultline\x7d".data, "\\end\x7bmultline\x7d".data),
   ("\\begin\x7bmultline*\x7d".data, "\\end\x7bmultline*\x7d".data),
   ("\\begin\x7bdisplaymath\x7d".data, "\\end\x7bdisplaymath\x7d".data)]

/-- Step 1 of `is_math_block` (lines 27-37): the block starts and ends with
one of the recognized paired delimiters.  The loop's extra `$$\n ... \n$$`
clause (line 36) is kept as the second disjunct.  (The `esc_start` /
`esc_end` strings computed on lines 30-31 are dead code and not modelled.) -/
def explicitDelimCheck (tb : List Char) : Bool :=
  explicitEnvPairs.any (fun pr => listStarts pr.1 tb && listEnds pr.2 tb)
  || (listStarts "$$\n".data tb && listEnds "\n$$".data tb)

/-- The keyword alternation of `latex_text_commands_re` (line 47). -/
def latexTextCmds : List (List Char) :=
  ["section".data, "subsection".data, "subsubsection".data, "paragraph".data,
   "caption".data, "label".data, "ref".data, "textit".data, "textbf".data,
   "texttt".data, "item".data, "footnote".data, "chapter".data, "part".data,
   "textnormal".data, "emph".data]

/-- Regex `\b` after a keyword: next char absent or not a word char. -/
def boundaryOkA : List Char → Bool
  | [] => true
  | c :: _ => !(isWordCharA c)

/-- Case-insensitive literal match of `kw` (lowercase) at the front of `l`. -/
def ciExact (kw l : List Char) : Bool := (l.take kw.length).map Char.toLower == kw

/-- `latex_text_commands_re.match(line)` (lines 46-50): regex
`^\s*\\(section|...|emph)\b` with `re.IGNORECASE`.  The alternation is an
existence check here because regex backtracking tries every keyword. -/
def latexTextCmdMatch (line : List Char) : Bool :=
  match line.dropWhile isPyWs with
  | '\\' :: rest =>
    latexTextCmds.any (fun kw => ciExact kw rest && boundaryOkA (rest.drop kw.length))
  | _ => false

/-- `markdown_list_re.match(line)` (line 54): regex `^\s*([-*+]|\d+\.)\s+`.
For `\d+\.` the digit run must be maximal (a shorter run is followed by a
digit, not `.`), so no backtracking case is lost. -/
def markdownListMatch (line : List Char) : Bool :=
  let r := line.dropWhile isPyWs
  (match r with
   | c :: d :: _ => (c == '-' || c == '*' || c == '+') && isPyWs d
   | _ => false)
  ||
  (let ds := r.takeWhile Char.isDigit
   !ds.isEmpty &&
     (match r.drop ds.length with
      | '.' :: d :: _ => isPyWs d
      | _ => false))

/-- The character class `[=+\-*/^_{}\[\]<>\\$]` shared by the `findall`
patterns on lines 61 and 71.  Because `\` is in this leading class and
regex alternation is first-match, the `\\(frac|sum|...)` alternative of
those patterns never fires, so `len(findall(...))` is exactly the number
of characters of the input lying in this class. -/
def mathSymbolSet : List Char :=
  ['=', '+', '-', '*', '/', '^', '_', '{', '}', '[', ']', '<', '>', '\\', '$']

/-- `len(re.findall(...))` for the patterns of lines 61 and 71. -/
def countMathSyms (l : List Char) : Nat := l.countP (fun c => mathSymbolSet.contains c)

/-- The keyword alternation of `math_keywords_re` (lines 101-106), in the
regex's alternation order (`int` before `in`, `infty` before `in`, ...). -/
def mathKeywords : List (List Char) :=
  ["sum".data, "int".data, "frac".data, "sqrt".data, "lim".data,
   "alpha".data, "beta".data, "gamma".data, "delta".data, "omega".data,
   "sin".data, "cos".data, "log".data, "prod".data, "partial".data,
   "nabla".data, "infty".data, "forall".data, "exists".data, "in".data,
   "notin".data, "subset".data, "supset".data, "approx".data, "equiv".data,
   "neq".data, "leq".data, "geq".data, "times".data, "div".data,
   "pm".data, "mp".data, "cdot".data, "circ".data, "wedge".data,
   "vee".data, "cap".data, "cup".data, "oplus".data, "otimes".data,
   "perp".data, "angle".data, "hbar".data, "mathbb".data, "mathcal".data,
   "mathbf".data, "mathrm".data, "mathsf".data, "mathtt".data,
   "textrm".data, "textit".data, "textbf".data]

/-- The trailing character class `[=<>+\-*/^_{}()\[\]|%]` of
`math_keywords_re` (line 105).  It is the same set as the string
`"=<>+-*/^_{}()[]|%"` used by the membership test on line 134. -/
def opSymChars : List Char :=
  ['=', '<', '>', '+', '-', '*', '/', '^', '_', '{', '}', '(', ')', '[', ']', '|', '%']

/-- One `findall` match of `math_keywords_re`: a LaTeX command
(`\` + keyword, stored without the backslash here) or a single
operator/bracket character. -/
inductive MTok where
  | cmd (kw : List Char)
  | sym (c : Char)
  deriving DecidableEq

def MTok.isCmd : MTok → Bool
  | .cmd _ => true
  | .sym _ => false

def MTok.isSym : MTok → Bool
  | .cmd _ => false
  | .sym _ => true

/-- First keyword of the alternation matching at the front of `l`. -/
def findKw (l : List Char) : Option (List Char) :=
  mathKeywords.find? (fun kw => listStarts kw l)

/-- `math_keywords_re.findall(line)` (line 128): left-to-right,
non-overlapping, first-alternative-first scan.  At a `\` the command
alternation is tried (the trailing class does not contain `\`, so a lone
backslash matches nothing and the scan advances one character).  The fuel
argument starts at the length of the list and every step consumes at
least one character, so the fuel never runs out. -/
def scanMK : Nat → List Char → List MTok
  | 0, _ => []
  | _ + 1, [] => []
  | fuel + 1, c :: rest =>
    if c == '\\' then
      match findKw rest with
      | some kw => .cmd kw :: scanMK fuel (rest.drop kw.length)
      | none => scanMK fuel rest
    else if opSymChars.contains c then .sym c :: scanMK fuel rest
    else scanMK fuel rest

def scanMathKeywords (l : List Char) : List MTok := scanMK l.length l

/-- `re.search(r"\S+\s*=\s*\N+"...)` -- precisely, line 118's pattern
`\S+\s*=\s*\S+`: some `=` has a non-space character somewhere before it
(the last such is separated from `=` only by whitespace) and a non-space
character after it separated only by whitespace. -/
def hasEqSearchGo (seen : Bool) : List Char → Bool
  | [] => false
  | c :: rest =>
    if c == '=' && seen && !((rest.dropWhile isPyWs).isEmpty) then true
    else hasEqSearchGo (seen || !(isPyWs c)) rest

def hasEqSearch (l : List Char) : Bool := hasEqSearchGo false l

/-- Scan for the `\)\s*=` part of line 119's pattern: a `)` preceded by at
least one character (the regex `.+`), followed by optional whitespace and
`=`.  `consumed` records whether at least one character precedes. -/
def parenScan : Bool → List Char → Bool
  | _, [] => false
  | consumed, c :: rest =>
    if c == ')' && consumed && ((rest.dropWhile isPyWs).head? == some '=') then true
    else parenScan true rest

/-- `re.search(r"^[a-zA-Z0-9_]+\(.+\)\s*=", line)` (line 119).  The `^` of
a `re.search` anchors at the string start; `[a-zA-Z0-9_]+` must therefore
be the (non-empty) maximal word-character prefix, followed by `(`. -/
def funcEqSearch (l : List Char) : Bool :=
  let w := l.takeWhile isWordCharA
  if w.isEmpty then false
  else
    match l.drop w.length with
    | '(' :: r => parenScan false r
    | _ => false

/-- `re.search(r"\\frac.+=", line)` (line 120): an occurrence of `\frac`
(5 characters) followed by at least one character and then an `=`. -/
def fracEqSearch : List Char → Bool
  | [] => false
  | c :: rest =>
    (listStarts "\\frac".data (c :: rest) && ((c :: rest).drop 6).contains '=')
    || fracEqSearch rest

/-- The `common_short_prose` list (line 92). -/
def commonShortProse : List (List Char) :=
  ["conclusion".data, "introduction".data, "summary".data, "abstract".data,
   "results".data, "discussion".data, "methods".data, "note".data,
   "figure".data, "table".data, "appendix".data]

/-- `re.fullmatch(r"[a-zA-Z0-9_^{}]+", s)` (line 148). -/
def wordSubSupFull (l : List Char) : Bool :=
  !l.isEmpty && l.all (fun c => isWordCharA c || c == '^' || c == '{' || c == '}')

/-- `re.fullmatch(r"[a-zA-Z0-9_^{}\[\]()+\-*/=<>|%]+", s)` (line 166). -/
def classBFull (l : List Char) : Bool :=
  !l.isEmpty && l.all (fun c =>
    isWordCharA c || c == '^' || c == '{' || c == '}' || c == '[' || c == ']'
    || c == '(' || c == ')' || c == '+' || c == '-' || c == '*' || c == '/'
    || c == '=' || c == '<' || c == '>' || c == '|' || c == '%')

/-- `line.strip().endswith(punc) for punc in ['.', '?', '!']`. -/
def endsPunct (l : List Char) : Bool :=
  l.getLast? == some '.' || l.getLast? == some '?' || l.getLast? == some '!'

/-- The per-line body of the loop at lines 111-150, producing the
increments of `(equation_line_count, strong_math_line_count)` for one
line.  `n` is `num_lines`, `w` is `len(words)` of the whole block. -/
def lineClass (n w : Nat) (line : List Char) : Nat × Nat :=
  let ls := pyStrip line
  if ls.isEmpty || ls.head? == some '%' then (0, 0)
  else if hasEqSearch ls || funcEqSearch ls || fracEqSearch ls then (1, 1)
  else
    let toks := scanMathKeywords ls
    let k := toks.length
    let hasCmd := toks.any MTok.isCmd
    let hasOp := toks.any MTok.isSym
    if (hasCmd && hasOp) || (hasCmd && k > 1) || (k > 2 && !hasCmd) then (1, 1)
    else if hasCmd && n == 1 then (1, 0)
    else if k ≥ 1 && n == 1 && w < 3 && ls.length < 15
            && wordSubSupFull (ls.filter (fun c => !(c == '\\'))) then (1, 0)
    else (0, 0)

/-- `(equation_line_count, strong_math_line_count)` after the whole loop. -/
def lineCounts (n w : Nat) (lines : List (List Char)) : Nat × Nat :=
  lines.foldl (fun acc l =>
    (acc.1 + (lineClass n w l).1, acc.2 + (lineClass n w l).2)) (0, 0)

/-- The markdown-list rejection of lines 55-63 as a single condition:
the code returns `False` exactly when every inner test holds. -/
def listProseReject (tb : List Char) (lines : List (List Char)) (n : Nat) : Bool :=
  lines.any markdownListMatch
  && (decide (n ≤ 5) && decide ((lines.filter (fun l => !(markdownListMatch l))).length ≤ 1))
  && decide (countMathSyms tb < n)

/-- The sentence-structure rejection of lines 69-80 as a single condition.
`ind < max(1, w/10, n/2)` (Python float `max`) is the exact disjunction
`ind < 1 or 10*ind < w or 2*ind < n`; `sec > n/2` is `2*sec > n`. -/
def sentenceProseReject (tb : List Char) (lines : List (List Char)) (n w : Nat) : Bool :=
  (decide (w > 8) && endsPunct tb)
  && (let ind := countMathSyms tb
      decide (ind < 1) || decide (10 * ind < w) || decide (2 * ind < n))
  && (let sec := (lines.filter (fun l => endsPunct (pyStrip l))).length
      decide (2 * sec > n) || (decide (n = 1) && decide (sec = 1)))

/-- The `common_short_prose` rejection of lines 92-94:
`text_block.lower().strip('.').strip(':')` is in the list. -/
def shortProseReject (tb : List Char) (n w : Nat) : Bool :=
  decide (n = 1) && decide (w ≤ 2)
  && commonShortProse.contains (pyStripChar ':' (pyStripChar '.' (pyLower tb)))

/-- The single-line decision of lines 157-169. -/
def singleLineDecision (tb : List Char) (w eq strong : Nat) : Bool :=
  if strong ≥ 1 then true
  else if eq ≥ 1 && decide (w ≤ 2) && decide (tb.length < 15)
          && (tb.head? == some '\\' || classBFull tb)
          && !(commonShortProse.contains (pyLower tb)
               || (decide (tb.length > 3) && isAlphaAll tb
                   && !(tb.head? == some '\\'))) then true
  else false

/-- The multi-line decision of lines 175-189.  The float thresholds
`0.6`, `0.4`, `0.8` are the exact tests `5*eq >= 3*n`, `5*strong >= 2*n`,
`5*eq >= 4*n`.  The `num_lines > 5 and eq/n < 0.5` branch (line 186) and
the final fall-through (line 189) both return `False`, so the `else`
branch below covers them jointly. -/
def multiLineDecision (n w eq strong : Nat) : Bool :=
  if 5 * eq ≥ 3 * n || (5 * strong ≥ 2 * n && n ≤ 5) then
    if w > n * 7 && n > 2 then
      if 5 * eq < 4 * n then false else true
    else true
  else false

/-- Steps 2-6 of `is_math_block` (lines 40-189), on the stripped block.
The `pass` branch at lines 82-87 is dead code and the `num_lines == 0`
guard at line 153 is unreachable (`split('\n')` never returns an empty
list); both are kept for fidelity. -/
def mainHeuristics (tb : List Char) : Bool :=
  let lines := splitNl tb
  let n := lines.length
  let w := (pyWords tb).length
  if lines.any latexTextCmdMatch then false
  else if listProseReject tb lines n then false
  else if sentenceProseReject tb lines n w then false
  else if shortProseReject tb n w then false
  else
    let c := lineCounts n w lines
    if n == 0 then false
    else if n == 1 then singleLineDecision tb w c.1 c.2
    else multiLineDecision n w c.1 c.2

/-- `is_math_block` (latex_generator.py lines 5-189), on `List Char`. -/
def isMathBlockL (input : List Char) : Bool :=
  let tb := pyStrip input
  if tb.isEmpty then false
  else if explicitDelimCheck tb then true
  else mainHeuristics tb

/-- `is_math_block` on Lean strings. -/
def isMathBlockS (s : String) : Bool := isMathBlockL s.data

/-! ## The escaper (latex_generator.py lines 242-267) -/

/-- The `replacements` dict of lines 244-252 in insertion order.  The code
applies the backslash entry first (line 263) and then iterates over the
dict skipping the backslash (lines 264-267); since the backslash is also
the first dict entry, the net effect is the table applied in order. -/
def replacementTable : List (Char × List Char) :=
  [('\\', "\\textbackslash\x7b\x7d".data),
   ('{', "\\\x7b".data),
   ('}', "\\\x7d".data),
   ('_', "\\_".data),
   ('^', "\\textasciicircum\x7b\x7d".data),
   ('~', "\\textasciitilde\x7b\x7d".data),
   ('&', "\\&".data),
   ('$', "\\$".data),
   ('#', "\\#".data),
   ('%', "\\%".data),
   ('\u201c', "``".data),
   ('\u201d', "\x27\x27".data),
   ('\u2018', "`".data),
   ('\u2019', "\x27".data),
   ('\u2014', "---".data),
   ('\u2013', "--".data),
   ('\u2026', "\\dots\x7b\x7d".data)]

/-- Apply a list of single-character replacements sequentially (each
`str.replace` call rescans the whole intermediate string, so later
replacements do apply to text inserted by earlier ones). -/
def escapeTbl (tbl : List (Char × List Char)) (l : List Char) : List Char :=
  tbl.foldl (fun acc e => replaceChar e.1 e.2 acc) l

/-- The escaping pass of lines 261-267. -/
def escape (l : List Char) : List Char := escapeTbl replacementTable l

/-- The escaping pass on Lean strings. -/
def escapeS (s : String) : String := ⟨escape s.data⟩

/-- The net effect of `escape` on a single character, after all seventeen
replacements have cascaded.  Note the backslash image: the braces of the
inserted `\textbackslash{}` are re-escaped by the subsequent `{` and `}`
replacements, yielding `\textbackslash\{\}`.  The images inserted by the
`^`, `~` and `...` replacements keep their literal `{}` because those
replacements run after the brace replacements. -/
def escapeChar (c : Char) : List Char :=
  if c == '\\' then "\\textbackslash\\\x7b\\\x7d".data
  else if c == '{' then "\\\x7b".data
  else if c == '}' then "\\\x7d".data
  else if c == '_' then "\\_".data
  else if c == '^' then "\\textasciicircum\x7b\x7d".data
  else if c == '~' then "\\textasciitilde\x7b\x7d".data
  else if c == '&' then "\\&".data
  else if c == '$' then "\\$".data
  else if c == '#' then "\\#".data
  else if c == '%' then "\\%".data
  else if c == '\u201c' then "``".data
  else if c == '\u201d' then "\x27\x27".data
  else if c == '\u2018' then "`".data
  else if c == '\u2019' then "\x27".data
  else if c == '\u2014' then "---".data
  else if c == '\u2013' then "--".data
  else if c == '\u2026' then "\\dots\x7b\x7d".data
  else [c]

/-! ## The block renderer (latex_generator.py lines 269-286) -/

/-- Rendering of one paragraph (lines 271-283) for a non-dropped
paragraph: math blocks are stripped and wrapped in `$$ ... $$`, prose
blocks with non-whitespace content get ` \\ ` line breaks, and
whitespace-only paragraphs pass through unchanged. -/
def renderBlockS (p : String) : String :=
  if isMathBlockS p then "$$\n" ++ (⟨pyStrip p.data⟩ : String) ++ "\n$$"
  else if !(pyStrip p.data).isEmpty then ⟨replaceChar '\n' " \\\\ ".data p.data⟩
  else p

/-- The paragraph loop of lines 270-283: build `processed_latex_parts` by
appending.  A paragraph that is the empty string appends nothing
(`elif para_text:` is false for `""`). -/
def processParagraphs (ps : List String) : List String :=
  ps.foldl (fun acc p =>
    if isMathBlockS p then acc ++ ["$$\n" ++ (⟨pyStrip p.data⟩ : String) ++ "\n$$"]
    else if !(pyStrip p.data).isEmpty then acc ++ [(⟨replaceChar '\n' " \\\\ ".data p.data⟩ : String)]
    else if p ≠ "" then acc ++ [p]
    else acc) []

/-- The blocks `generate_latex_document` feeds to `is_math_block`:
the escaped text split on `'\n\n'` (lines 242-273). -/
def generatorBlocks (text : String) : List String :=
  (splitDoubleNewline (escape text.data)).map (fun l => (⟨l⟩ : String))

/-! ## The images/formulas section (latex_generator.py lines 295-330) -/

/-- Margins in centimetres (`margins_cm` of pdf_parser.py / the `margins`
dict consumed by `generate_latex_document`). -/
structure MarginsQ where
  left : ℚ
  right : ℚ
  top : ℚ
  bottom : ℚ
  width : ℚ
  height : ℚ
  deriving DecidableEq

/-- `os.path.basename` (posix): the part after the last `/`. -/
def baseName (l : List Char) : List Char :=
  l.foldl (fun acc c => if c == '/' then [] else acc ++ [c]) []

/-- Decimal digits of a natural number. -/
def natS (n : Nat) : String := ⟨Nat.toDigits 10 n⟩

/-- Round `100 * q` to an integer, halves to even (the rounding CPython's
`format(q, '.2f')` applies to the scaled value; float rounding error is
not modelled).  Everything is integer arithmetic on `q`'s numerator and
denominator: with `f` the floor of `100*q = n/d`, the fractional part
`(n - f*d)/d` is compared with `1/2` by comparing `2*(n - f*d)` with `d`. -/
def rndCents (q : ℚ) : ℤ :=
  let n := 100 * q.num
  let d : ℤ := (q.den : ℤ)
  let f := Int.fdiv n d
  let r2 := 2 * (n - f * d)
  if r2 < d then f
  else if d < r2 then f + 1
  else if f % 2 = 0 then f else f + 1

/-- Python `f"{x:.2f}"` on the exact rational value. -/
def fmt2 (q : ℚ) : String :=
  let c := rndCents q
  let sgn := if c < 0 then "-" else ""
  let a := c.natAbs
  let r := a % 100
  sgn ++ natS (a / 100) ++ "." ++ (if r < 10 then "0" else "") ++ natS r

/-- `math_ocr_content.get(img_path)` (line 308).  The dict is modelled as
an association list with first-match lookup (dict keys are unique); a key
stored with value `None` and an absent key both yield `none`, exactly as
`dict.get` does. -/
def mathOcrGet (d : List (String × Option String)) (k : String) : Option String :=
  match d.find? (fun e => e.1 == k) with
  | some e => e.2
  | none => none

/-- The figure fallback of lines 315-330 for one image.  `pl` is the
slash-normalized path, `fn` the underscore-escaped caption filename.
The width option (lines 318-326) uses 80% of `margins['width']` when the
margins are present with a positive width; the typed model cannot hold a
non-numeric width, so the `ValueError/TypeError` fallback is vacuous. -/
def figureParts (m : Option MarginsQ) (pl fn : String) : List String :=
  let ws :=
    match m with
    | some mg => if 0 < mg.width then "width=" ++ fmt2 (mg.width * (8/10)) ++ "cm, " else ""
    | none => ""
  ["\n\\begin\x7bfigure\x7d[htbp]",
   "  \\centering",
   "  \\includegraphics[" ++ ws ++ "keepaspectratio]\x7b" ++ pl ++ "\x7d",
   "  \\caption\x7bImage: " ++ fn ++ "\x7d",
   "\\end\x7bfigure\x7d"]

/-- The per-image body of the loop at lines 301-330: either the OCR
comment plus the formula verbatim (when the lookup is truthy, i.e. a
non-empty string), or the figure fallback. -/
def imageEntry (m : Option MarginsQ) (p : String) (ocr : Option String) : List String :=
  let pl : String := ⟨replaceChar '\\' "/".data p.data⟩
  let fn : String := ⟨replaceChar '_' "\\_".data (baseName pl.data)⟩
  match ocr with
  | some s => if s ≠ "" then ["\n% Image " ++ fn ++ " was OCR\x27d as a formula:", s]
              else figureParts m pl fn
  | none => figureParts m pl fn

/-- Lines 298-330: the whole images/formulas section, built by appending
to `latex_parts` exactly as the Python loop does (nothing when
`image_paths` is empty). -/
def buildImagesSection (paths : List String) (d : List (String × Option String))
    (m : Option MarginsQ) : List String :=
  match paths with
  | [] => []
  | _ =>
    paths.foldl (fun acc p => acc ++ imageEntry m p (mathOcrGet d p))
      ["\n\n\\clearpage % Ensure images start after text, or on new page if needed",
       "\\section*\x7bExtracted Images/Formulas\x7d"]

/-- Spec-side renderer for one image entry, written from the spec's words
(section 4.5 item 3): comment + verbatim formula when the mapping holds a
non-empty string, otherwise a centered figure sized to 80% of the content
width when a positive width is available.  Used as the right-hand side of
the refinement statement for the assembler's loop. -/
def specImageEntry (m : Option MarginsQ) (p : String) (ocr : Option String) : List String :=
  let pl : String := ⟨replaceChar '\\' "/".data p.data⟩
  let fn : String := ⟨replaceChar '_' "\\_".data (baseName pl.data)⟩
  match ocr with
  | some s =>
    if s ≠ "" then ["\n% Image " ++ fn ++ " was OCR\x27d as a formula:", s]
    else figureParts m pl fn
  | none => figureParts m pl fn

/-- Spec-side images/formulas section: one entry per element of
`image_paths`, in order, each determined only by the mapping's value at
that path. -/
def specImagesSection (paths : List String) (get : String → Option String)
    (m : Option MarginsQ) : List String :=
  match paths with
  | [] => []
  | _ =>
    ["\n\n\\clearpage % Ensure images start after text, or on new page if needed",
     "\\section*\x7bExtracted Images/Formulas\x7d"]
    ++ paths.flatMap (fun p => specImageEntry m p (get p))

/-! ## Margin extraction (pdf_parser.py lines 38-98) -/

/-- An axis-aligned rectangle in points (a `fitz.Rect`). -/
structure PyRect where
  x0 : ℚ
  y0 : ℚ
  x1 : ℚ
  y1 : ℚ
  deriving DecidableEq

def PyRect.w (r : PyRect) : ℚ := r.x1 - r.x0

def PyRect.h (r : PyRect) : ℚ := r.y1 - r.y0

/-- The box data of one page as obtained from the external PDF library.
`cropDegenerate` abstracts `crop_box.is_empty or crop_box.is_infinite`
(line 54), a predicate of the out-of-scope library. -/
structure PageBoxes where
  media : PyRect
  crop : PyRect
  cropDegenerate : Bool

/-- `points_to_cm = 2.54 / 72.0` (line 36), as an exact rational. -/
def ptsToCm : ℚ := 127 / 3600

/-- The default margins of line 98: `{2,2,2,2, width:17, height:25.7}`. -/
def defaultMarginsQ : MarginsQ := ⟨2, 2, 2, 2, 17, 257/10⟩

/-- Lines 48-98: compute `margins_cm` from the first page.  The argument
is `Except Unit PageBoxes`: `.error` models any exception raised while
accessing `doc[0]` or its boxes inside the `try` (line 95's handler),
which yields the default margins. -/
def marginsFromFirstPage (pg : Except Unit PageBoxes) : MarginsQ :=
  match pg with
  | .error _ => defaultMarginsQ
  | .ok b =>
    if b.cropDegenerate then
      ⟨0, 0, 0, 0, b.media.w * ptsToCm, b.media.h * ptsToCm⟩
    else
      ⟨max 0 (b.crop.x0 - b.media.x0) * ptsToCm,
       max 0 (b.media.x1 - b.crop.x1) * ptsToCm,
       max 0 (b.crop.y0 - b.media.y0) * ptsToCm,
       max 0 (b.media.y1 - b.crop.y1) * ptsToCm,
       b.crop.w * ptsToCm, b.crop.h * ptsToCm⟩

/-- The margins component of `extract_content_from_pdf` (lines 33-98): a
zero-page document returns early with `margins = None` (lines 38-45),
otherwise the first page determines the margins. -/
def extractContentMargins (doc : List (Except Unit PageBoxes)) : Option MarginsQ :=
  match doc with
  | [] => none
  | pg :: _ => some (marginsFromFirstPage pg)

/-! ## Dynamic-typing wrapper for the classifier's failure semantics -/

/-- The Python values relevant to calling `is_math_block` with a
non-string argument. -/
inductive PyVal where
  | str (s : String)
  | pyNone
  | pyInt (n : Int)
  deriving DecidableEq

inductive PyExc where
  | attributeError
  deriving DecidableEq

/-- Calling `is_math_block(v)` under CPython semantics: the first
statement `text_block.strip()` performs an attribute lookup on the
argument, which raises `AttributeError` for `None` and `int` (type hints
are not enforced); for strings the body is total and returns a `bool`. -/
def isMathBlockPy : PyVal → Except PyExc Bool
  | .str s => .ok (isMathBlockS s)
  | .pyNone => .error .attributeError
  | .pyInt _ => .error .attributeError

/-! ## Adjacent-pair invariant used for the escaped text -/

/-- The characters that may immediately follow a `\` inserted by the
escaper (the character after each backslash of every image in
`escapeChar`): `t`, `{`, `}`, `_`, `&`, `$`, `#`, `%`, `d`. -/
def escS : List Char := ['t', '{', '}', '_', '&', '$', '#', '%', 'd']

/-- Adjacency relation of the escaped text: a backslash is followed by a
replacement-continuation character, and a dollar is preceded by a
backslash. -/
def escRelB (a b : Char) : Bool :=
  (!(a == '\\') || escS.contains b) && (!(b == '$') || a == '\\')

/-- All adjacent pairs of the list satisfy `escRelB`. -/
def pairsOK : List Char → Bool
  | [] => true
  | [_] => true
  | a :: b :: r => escRelB a b && pairsOK (b :: r)

/-! ## Generic list lemmas -/

theorem foldl_append_flatMap {α β : Type} (f : α → List β) (l : List α) (acc : List β) :
    l.foldl (fun a x => a ++ f x) acc = acc ++ l.flatMap f := by
  induction l generalizing acc with
  | nil => simp
  | cons x t ih => simp [ih, List.append_assoc]

theorem listStarts_length (pat l : List Char) (h : listStarts pat l = true) :
    pat.length ≤ l.length := by
  induction pat generalizing l with
  | nil => simp
  | cons p ps ih =>
    cases l with
    | nil => simp [listStarts] at h
    | cons c cs =>
      have := ih cs (by simpa [listStarts] using (Bool.and_eq_true_iff.mp h).2)
      simpa using this

theorem listStarts_cons_ex (p : Char) (ps l : List Char) (h : listStarts (p :: ps) l = true) :
    ∃ r, l = p :: r ∧ listStarts ps r = true := by
  cases l with
  | nil => simp [listStarts] at h
  | cons c cs =>
    rcases Bool.and_eq_true_iff.mp h with ⟨h1, h2⟩
    exact ⟨cs, by rw [eq_of_beq h1], h2⟩

/-! ## C8 -/

/-- C8: `extract_content_from_pdf` recovers from margin-extraction
exceptions on a non-empty document by returning the default margins
`{2,2,2,2, width:17, height:25.7}` in cm, and returns `margins = None`
(not the default) for a zero-page document. -/
theorem c8_margin_fallbacks :
    extractContentMargins [] = none
    ∧ (∀ rest, extractContentMargins (Except.error () :: rest) = some defaultMarginsQ)
    ∧ defaultMarginsQ = ⟨2, 2, 2, 2, 17, 257/10⟩ :=
  ⟨rfl, fun _ => rfl, rfl⟩

/-! ## C1 -/

/-- C1: evaluation of `is_math_block` at the nine single-line inputs the
claim lists.  Seven agree with the claim; `"x"` and `"E"` come out
`False` (Prose) although the claim, the spec and the repository's own
test `test_single_words_vs_math` say `True` (Math) — the code's weak
single-symbol branch (lines 146-150) requires the math-keyword regex to
find at least one symbol, and a bare identifier contains none. -/
theorem c1_single_line_examples :
    isMathBlockS "x = 1" = true ∧ isMathBlockS "\\alpha" = true
    ∧ isMathBlockS "word" = false ∧ isMathBlockS "Hamiltonian" = false
    ∧ isMathBlockS "Alpha" = false ∧ isMathBlockS "Note:" = false
    ∧ isMathBlockS "Conclusion." = false
    ∧ isMathBlockS "x" = false ∧ isMathBlockS "E" = false := by decide

/-! ## C2 -/

/-- C2: the escaper's substitution table, evaluated one character at a
time.  Every entry matches the claim except the backslash: because the
`{` and `}` replacements run after the backslash replacement and rescan
the whole string, the braces of the inserted `\textbackslash{}` are
re-escaped, so escaping `"\"` yields `\textbackslash\{\}` — not the
`\textbackslash{}` the claim (and the repository's own test
`test_plain_text_processing_generate_doc`) states. -/
theorem c2_escaper_table :
    escapeS "\\" = "\\textbackslash\\\x7b\\\x7d"
    ∧ escapeS "\\" ≠ "\\textbackslash\x7b\x7d"
    ∧ escapeS "\x7b" = "\\\x7b" ∧ escapeS "\x7d" = "\\\x7d"
    ∧ escapeS "_" = "\\_"
    ∧ escapeS "^" = "\\textasciicircum\x7b\x7d"
    ∧ escapeS "~" = "\\textasciitilde\x7b\x7d"
    ∧ escapeS "&" = "\\&" ∧ escapeS "$" = "\\$"
    ∧ escapeS "#" = "\\#" ∧ escapeS "%" = "\\%"
    ∧ escapeS "\u201c" = "``" ∧ escapeS "\u201d" = "\x27\x27"
    ∧ escapeS "\u2018" = "`" ∧ escapeS "\u2019" = "\x27"
    ∧ escapeS "\u2014" = "---" ∧ escapeS "\u2013" = "--"
    ∧ escapeS "\u2026" = "\\dots\x7b\x7d" := by decide

/-! ## C4 -/

/-- C4: a block whose stripped text starts and ends with one of the
recognized paired delimiters is classified Math regardless of interior
content (leading/trailing whitespace tolerated via the strip). -/
theorem c4_explicit_delimiters (s : String)
    (h : explicitEnvPairs.any (fun pr =>
        listStarts pr.1 (pyStrip s.data) && listEnds pr.2 (pyStrip s.data)) = true) :
    isMathBlockS s = true := by
  have hne : (pyStrip s.data).isEmpty = false := by
    rcases List.any_eq_true.mp h with ⟨pr, hmem, hpr⟩
    have h1 := (Bool.and_eq_true_iff.mp hpr).1
    have hlen := listStarts_length _ _ h1
    have hpr1 : 1 ≤ pr.1.length := by
      have hall : ∀ q ∈ explicitEnvPairs, 1 ≤ q.1.length := by decide
      exact hall pr hmem
    cases hs : pyStrip s.data with
    | nil =>
      rw [hs] at hlen
      simp only [List.length_nil] at hlen
      omega
    | cons a r => rfl
  have hdc : explicitDelimCheck (pyStrip s.data) = true := by
    unfold explicitDelimCheck
    rw [h]
    rfl
  simp [isMathBlockS, isMathBlockL, hne, hdc]

theorem c4_explicit_delimiters_witness :
    (explicitEnvPairs.any (fun pr =>
        listStarts pr.1 (pyStrip " $$ not math at all $$ ".data)
        && listEnds pr.2 (pyStrip " $$ not math at all $$ ".data)) = true)
    ∧ isMathBlockS " $$ not math at all $$ " = true :=
  ⟨by decide, c4_explicit_delimiters " $$ not math at all $$ " (by decide)⟩

/-! ## C5 -/

/-- C5 counterexample: splitting `"a\n\n\n\nb"` produces the blocks
`["a", "", "b"]`, and the paragraph loop emits only two parts — the
empty-string block is dropped, not preserved as a paragraph break. -/
theorem c5_empty_block_dropped :
    generatorBlocks "a\n\n\n\nb" = ["a", "", "b"]
    ∧ processParagraphs ["a", "", "b"] = ["a", "b"] := by decide

theorem processParagraphs_go (ps : List String) (acc : List String) :
    ps.foldl (fun acc p =>
      if isMathBlockS p then acc ++ ["$$\n" ++ (⟨pyStrip p.data⟩ : String) ++ "\n$$"]
      else if !(pyStrip p.data).isEmpty then acc ++ [(⟨replaceChar '\n' " \\\\ ".data p.data⟩ : String)]
      else if p ≠ "" then acc ++ [p]
      else acc) acc
    = acc ++ (ps.filter (fun p => p ≠ "")).map renderBlockS := by
  induction ps generalizing acc with
  | nil => simp
  | cons p t ih =>
    rw [List.foldl_cons, List.filter_cons, ih]
    by_cases hm : isMathBlockS p = true
    · have hp : ¬(p = "") := by
        intro he
        rw [he] at hm
        exact absurd hm (by decide)
      have hr : renderBlockS p = "$$\n" ++ (⟨pyStrip p.data⟩ : String) ++ "\n$$" := by
        unfold renderBlockS
        rw [if_pos hm]
      simp [hm, hp, hr, List.append_assoc]
    · have hm' : isMathBlockS p = false := by
        revert hm
        cases isMathBlockS p <;> simp
      by_cases hp : p = ""
      · subst hp
        have hs : (pyStrip ("" : String).data).isEmpty = true := by decide
        simp [hm', hs]
      · by_cases hs : (pyStrip p.data).isEmpty = true
        · have hr : renderBlockS p = p := by
            unfold renderBlockS
            rw [hm', hs]
            simp
          simp [hm', hs, hp, hr, List.append_assoc]
        · have hs' : (pyStrip p.data).isEmpty = false := by
            revert hs
            cases (pyStrip p.data).isEmpty <;> simp
          have hr : renderBlockS p = ⟨replaceChar '\n' " \\\\ ".data p.data⟩ := by
            unfold renderBlockS
            rw [hm', hs']
            simp
          simp [hm', hs', hp, hr, List.append_assoc]

/-- C5 amended: the paragraph loop emits, in order, one rendered part per
non-empty block — math blocks wrapped, prose blocks with line breaks
converted, whitespace-only (non-empty) blocks unchanged — and drops the
blocks that are exactly the empty string. -/
theorem c5_amended (ps : List String) :
    processParagraphs ps = (ps.filter (fun p => p ≠ "")).map renderBlockS
    ∧ (∀ p : String, p ≠ "" → (pyStrip p.data).isEmpty = true → renderBlockS p = p) := by
  constructor
  · have h := processParagraphs_go ps []
    simpa [processParagraphs] using h
  · intro p _ hs
    have hm : isMathBlockS p = false := by
      simp [isMathBlockS, isMathBlockL, hs]
    unfold renderBlockS
    rw [hm, hs]
    simp

theorem c5_amended_witness :
    processParagraphs ["a", " ", "", "b"]
      = (["a", " ", "", "b"].filter (fun p => p ≠ "")).map renderBlockS
    ∧ renderBlockS " " = " " :=
  ⟨(c5_amended ["a", " ", "", "b"]).1, (c5_amended []).2 " " (by decide) (by decide)⟩

/-! ## C7 -/

/-- C7: the images/formulas section is, in `image_paths` order, exactly
one entry per path — OCR comment plus verbatim formula when the mapping
holds a non-empty string there, a centered figure otherwise — preceded by
the page-break/heading parts; it depends on the `math_ocr` mapping only
through its lookups (so not on its iteration order), and the figure's
width directive is 80% of `Margins.width` (formatted to two decimals)
whenever that width is positive. -/
theorem c7_images_section (paths : List String) (d : List (String × Option String))
    (m : Option MarginsQ) :
    buildImagesSection paths d m = specImagesSection paths (mathOcrGet d) m
    ∧ (∀ d' : List (String × Option String), (∀ p, mathOcrGet d p = mathOcrGet d' p) →
        buildImagesSection paths d m = buildImagesSection paths d' m)
    ∧ (∀ mg : MarginsQ, 0 < mg.width → ∀ pl fn : String,
        (figureParts (some mg) pl fn).get? 2
          = some ("  \\includegraphics[" ++ ("width=" ++ fmt2 (mg.width * (8/10)) ++ "cm, ")
              ++ "keepaspectratio]\x7b" ++ pl ++ "\x7d")) := by
  have key : ∀ dd : List (String × Option String),
      buildImagesSection paths dd m = specImagesSection paths (mathOcrGet dd) m := by
    intro dd
    unfold buildImagesSection specImagesSection
    cases paths with
    | nil => rfl
    | cons q qs =>
      rw [foldl_append_flatMap (fun p => imageEntry m p (mathOcrGet dd p)) (q :: qs)]
      rfl
  refine ⟨key d, fun d' hagree => ?_, fun mg hmg pl fn => ?_⟩
  · rw [key d, key d']
    have : mathOcrGet d = mathOcrGet d' := funext hagree
    rw [this]
  · simp [figureParts, hmg]

theorem c7_images_section_witness :
    buildImagesSection ["a.png", "b.png"] [("a.png", some "$$E=mc^2$$")] (some defaultMarginsQ)
      = buildImagesSection ["a.png", "b.png"]
          [("a.png", some "$$E=mc^2$$"), ("a.png", some "ignored shadowed value")]
          (some defaultMarginsQ)
    ∧ (figureParts (some defaultMarginsQ) "b.png" "b.png").get? 2
        = some "  \\includegraphics[width=13.60cm, keepaspectratio]\x7bb.png\x7d" := by
  constructor
  · refine (c7_images_section ["a.png", "b.png"] [("a.png", some "$$E=mc^2$$")]
      (some defaultMarginsQ)).2.1 _ (fun p => ?_)
    by_cases h : ("a.png" : String) = p
    · subst h
      rfl
    · have hb : (("a.png" : String) == p) = false := by
        simp [h]
      simp [mathOcrGet, List.find?, hb]
  · have h := (c7_images_section [] [] none).2.2 defaultMarginsQ
      (by norm_num [defaultMarginsQ]) "b.png" "b.png"
    have harg : defaultMarginsQ.width * (8/10) = mkRat 68 5 := by
      rw [Rat.mkRat_eq_divInt, Rat.divInt_eq_div]
      norm_num [defaultMarginsQ]
    rw [harg] at h
    rw [h]
    decide

/-! ## C9 -/

/-- C9 counterexample: calling `is_math_block` with a non-string raises
`AttributeError` (the first statement is `text_block.strip()`), so the
claim that every input yields a Boolean without an exception is false. -/
theorem c9_nonstring_raises :
    isMathBlockPy PyVal.pyNone = Except.error PyExc.attributeError
    ∧ isMathBlockPy (PyVal.pyInt 3) = Except.error PyExc.attributeError :=
  ⟨rfl, rfl⟩

/-- C9 amended: for every string input the classifier returns a Boolean
without raising, and empty/whitespace-only strings are Prose; non-string
inputs raise `AttributeError` instead of being treated as Prose. -/
theorem c9_amended :
    (∀ s : String, ∃ b : Bool, isMathBlockPy (PyVal.str s) = Except.ok b)
    ∧ (∀ s : String, (pyStrip s.data).isEmpty = true →
        isMathBlockPy (PyVal.str s) = Except.ok false)
    ∧ isMathBlockPy PyVal.pyNone = Except.error PyExc.attributeError := by
  refine ⟨fun s => ⟨isMathBlockS s, rfl⟩, fun s h => ?_, rfl⟩
  simp [isMathBlockPy, isMathBlockS, isMathBlockL, h]

theorem c9_amended_witness :
    isMathBlockPy (PyVal.str "  ") = Except.ok false :=
  c9_amended.2.1 "  " (by decide)

/-! ## C3 and C6: the multi-line aggregate decision -/

theorem lineClass_snd_eq_fst (n w : Nat) (hn : ¬(n = 1)) (l : List Char) :
    (lineClass n w l).2 = (lineClass n w l).1 := by
  unfold lineClass
  have hb : (n == 1) = false := by
    simpa using hn
  simp only [hb, Bool.and_false, Bool.false_and, Bool.and_self, Bool.false_eq_true, if_false]
  split
  · rfl
  split
  · rfl
  split
  · rfl
  rfl

theorem lineCounts_go_snd_eq_fst (n w : Nat) (hn : ¬(n = 1)) (lines : List (List Char)) :
    ∀ acc : Nat × Nat, acc.2 = acc.1 →
      (lines.foldl (fun acc l =>
        (acc.1 + (lineClass n w l).1, acc.2 + (lineClass n w l).2)) acc).2
      = (lines.foldl (fun acc l =>
        (acc.1 + (lineClass n w l).1, acc.2 + (lineClass n w l).2)) acc).1 := by
  induction lines with
  | nil => intro acc h; simpa using h
  | cons l t ih =>
    intro acc h
    rw [List.foldl_cons]
    exact ih _ (by simp [h, lineClass_snd_eq_fst n w hn l])

theorem lineCounts_snd_eq_fst (n w : Nat) (hn : ¬(n = 1)) (lines : List (List Char)) :
    (lineCounts n w lines).2 = (lineCounts n w lines).1 :=
  lineCounts_go_snd_eq_fst n w hn lines (0, 0) rfl

/-- C3 counterexample: a 3-line block with exactly one math-signal line
(`"x = 1"`) that none of steps 1-4 resolves is classified Prose, and a
6-line block with exactly 50% math lines is classified Prose — refuting
both the "2-3 lines: at least one math line" rule and the "4-10 lines:
at least 50%" rule as stated. -/
theorem c3_aggregate_counterexample :
    explicitDelimCheck (pyStrip "x = 1\nhello\nworld".data) = false
    ∧ (splitNl (pyStrip "x = 1\nhello\nworld".data)).any latexTextCmdMatch = false
    ∧ listProseReject (pyStrip "x = 1\nhello\nworld".data)
        (splitNl (pyStrip "x = 1\nhello\nworld".data)) 3 = false
    ∧ sentenceProseReject (pyStrip "x = 1\nhello\nworld".data)
        (splitNl (pyStrip "x = 1\nhello\nworld".data)) 3 5 = false
    ∧ shortProseReject (pyStrip "x = 1\nhello\nworld".data) 3 5 = false
    ∧ (splitNl (pyStrip "x = 1\nhello\nworld".data)).length = 3
    ∧ (lineCounts 3 5 (splitNl (pyStrip "x = 1\nhello\nworld".data))).1 = 1
    ∧ isMathBlockS "x = 1\nhello\nworld" = false
    ∧ (splitNl (pyStrip "a = 1\nb = 2\nc = 3\nhello\nworld\nagain".data)).length = 6
    ∧ (lineCounts 6 12 (splitNl (pyStrip "a = 1\nb = 2\nc = 3\nhello\nworld\nagain".data))).1 = 3
    ∧ isMathBlockS "a = 1\nb = 2\nc = 3\nhello\nworld\nagain" = false := by decide

/-- C3 amended: for a block that none of steps 1-4 resolved, with `n >= 2`
lines and at most 7 words per line on average, the classification is Math
iff at least 60% of the lines (empty lines included in the denominator)
are math lines, or the block has at most 5 lines and at least 40% are.
In particular a 2-line block with one math line is Math, but a 3-line
block with one math line and a 6-line block with three are Prose. -/
theorem c3_amended (s : String) (t : List Char) (lines : List (List Char)) (n w : Nat)
    (ht : t = pyStrip s.data)
    (hl : lines = splitNl t)
    (hn : n = lines.length)
    (hw : w = (pyWords t).length)
    (h0 : t.isEmpty = false)
    (h1 : explicitDelimCheck t = false)
    (h2 : lines.any latexTextCmdMatch = false)
    (h3 : listProseReject t lines n = false)
    (h4 : sentenceProseReject t lines n w = false)
    (h5 : shortProseReject t n w = false)
    (hn2 : 2 ≤ n)
    (hwordy : w ≤ n * 7) :
    isMathBlockS s =
      (decide (5 * (lineCounts n w lines).1 ≥ 3 * n)
       || (decide (n ≤ 5) && decide (5 * (lineCounts n w lines).1 ≥ 2 * n))) := by
  subst hl hn hw
  subst ht
  simp only [isMathBlockS, isMathBlockL, mainHeuristics, h0, h1, h2, h3, h4, h5,
    Bool.false_eq_true, if_false]
  have hn0 : ((splitNl (pyStrip s.data)).length == 0) = false := by
    simp only [beq_eq_false_iff_ne, ne_eq]
    omega
  have hn1 : ((splitNl (pyStrip s.data)).length == 1) = false := by
    simp only [beq_eq_false_iff_ne, ne_eq]
    omega
  simp only [hn0, hn1, Bool.false_eq_true, if_false]
  rw [multiLineDecision,
    lineCounts_snd_eq_fst _ _ (by omega) _]
  have hw7 : ¬((pyWords (pyStrip s.data)).length > (splitNl (pyStrip s.data)).length * 7) := by
    omega
  by_cases hA : 5 * (lineCounts (splitNl (pyStrip s.data)).length
      ((pyWords (pyStrip s.data)).length) (splitNl (pyStrip s.data))).1
      ≥ 3 * (splitNl (pyStrip s.data)).length
    <;> by_cases hB : (splitNl (pyStrip s.data)).length ≤ 5
    <;> by_cases hC : 5 * (lineCounts (splitNl (pyStrip s.data)).length
      ((pyWords (pyStrip s.data)).length) (splitNl (pyStrip s.data))).1
      ≥ 2 * (splitNl (pyStrip s.data)).length
    <;> simp [hA, hB, hC, hw7]

theorem c3_amended_witness : isMathBlockS "x = 1\ny = 2" = true := by
  have h := c3_amended "x = 1\ny = 2" (pyStrip "x = 1\ny = 2".data)
    (splitNl (pyStrip "x = 1\ny = 2".data)) 2 6 rfl rfl (by decide) (by decide)
    (by decide) (by decide) (by decide) (by decide) (by decide) (by decide)
    (by decide) (by decide)
  rw [h]
  decide

/-- C6 counterexample: a 16-line block that is not explicitly delimited,
whose first three lines show clear prose signals (capitalized starts, the
long word "Hamiltonian", periods), but whose remaining 13 lines are
equations, is classified Math — there is no pre-density rejection of
long blocks; the only `> 5 lines` branch in the code (line 84) is a
no-op `pass`. -/
theorem c6_long_block_counterexample :
    (splitNl (pyStrip "A Hamiltonian appears here.\nIt is described now.\nWe derive it.\na = 1\nb = 2\nc = 3\nd = 4\ne = 5\nf = 6\ng = 7\nh = 8\ni = 9\nj = 1\nk = 2\nl = 3\nm = 4".data)).length = 16
    ∧ explicitDelimCheck (pyStrip "A Hamiltonian appears here.\nIt is described now.\nWe derive it.\na = 1\nb = 2\nc = 3\nd = 4\ne = 5\nf = 6\ng = 7\nh = 8\ni = 9\nj = 1\nk = 2\nl = 3\nm = 4".data) = false
    ∧ isMathBlockS "A Hamiltonian appears here.\nIt is described now.\nWe derive it.\na = 1\nb = 2\nc = 3\nd = 4\ne = 5\nf = 6\ng = 7\nh = 8\ni = 9\nj = 1\nk = 2\nl = 3\nm = 4" = true := by
  decide

theorem multiDecide_gt5 (a b c : Nat) (h5 : 5 < a) :
    multiLineDecision a c b b
      = (decide (5 * b ≥ 3 * a) && (decide (c ≤ a * 7) || decide (5 * b ≥ 4 * a))) := by
  unfold multiLineDecision
  have d1 : decide (a ≤ 5) = false := decide_eq_false (by omega)
  have d2 : decide (a > 2) = true := decide_eq_true (by omega)
  by_cases hA : 5 * b ≥ 3 * a
  · have dA : decide (5 * b ≥ 3 * a) = true := decide_eq_true hA
    by_cases hW : c > a * 7
    · have dW : decide (c > a * 7) = true := decide_eq_true hW
      have dW' : decide (c ≤ a * 7) = false := decide_eq_false (by omega)
      by_cases hC : 5 * b < 4 * a
      · have dC : decide (5 * b < 4 * a) = true := decide_eq_true hC
        have dC' : decide (5 * b ≥ 4 * a) = false := decide_eq_false (by omega)
        simp [dA, d1, d2, dW, dW', dC, dC']
      · have dC : decide (5 * b < 4 * a) = false := decide_eq_false hC
        have dC' : decide (5 * b ≥ 4 * a) = true := decide_eq_true (by omega)
        simp [dA, d1, d2, dW, dW', dC, dC']
    · have dW : decide (c > a * 7) = false := decide_eq_false hW
      have dW' : decide (c ≤ a * 7) = true := decide_eq_true (by omega)
      simp [dA, d1, d2, dW, dW']
  · have dA : decide (5 * b ≥ 3 * a) = false := decide_eq_false hA
    simp [dA, d1, d2]

/-- C6 amended: undelimited blocks with more than 5 lines (in particular
more than 15) have no early prose-signal rejection; for such a block that
none of steps 1-4 resolved, the classification is Math iff at least 60%
of its lines are math lines, demoted to Prose when the average words per
line exceeds 7 and the math-line ratio is below 80%. -/
theorem c6_amended (s : String) (t : List Char) (lines : List (List Char)) (n w : Nat)
    (ht : t = pyStrip s.data)
    (hl : lines = splitNl t)
    (hn : n = lines.length)
    (hw : w = (pyWords t).length)
    (h0 : t.isEmpty = false)
    (h1 : explicitDelimCheck t = false)
    (h2 : lines.any latexTextCmdMatch = false)
    (h3 : listProseReject t lines n = false)
    (h4 : sentenceProseReject t lines n w = false)
    (h5 : shortProseReject t n w = false)
    (hn5 : 5 < n) :
    isMathBlockS s =
      (decide (5 * (lineCounts n w lines).1 ≥ 3 * n)
       && (decide (w ≤ n * 7) || decide (5 * (lineCounts n w lines).1 ≥ 4 * n))) := by
  subst hl hn hw
  subst ht
  simp only [isMathBlockS, isMathBlockL, mainHeuristics, h0, h1, h2, h3, h4, h5,
    Bool.false_eq_true, if_false]
  have hn0 : ((splitNl (pyStrip s.data)).length == 0) = false := by
    simp only [beq_eq_false_iff_ne, ne_eq]
    omega
  have hn1 : ((splitNl (pyStrip s.data)).length == 1) = false := by
    simp only [beq_eq_false_iff_ne, ne_eq]
    omega
  simp only [hn0, hn1, Bool.false_eq_true, if_false]
  rw [lineCounts_snd_eq_fst _ _ (by omega) _]
  exact multiDecide_gt5 _ _ _ (by omega)

/-! ## C10: structure of the escaped text and its blocks -/

theorem replaceChar_append (p : Char) (r xs ys : List Char) :
    replaceChar p r (xs ++ ys) = replaceChar p r xs ++ replaceChar p r ys := by
  induction xs with
  | nil => rfl
  | cons c t ih => simp [replaceChar, ih, List.append_assoc]

theorem escapeTbl_nil (tbl : List (Char × List Char)) : escapeTbl tbl [] = [] := by
  induction tbl with
  | nil => rfl
  | cons e t ih => simpa [escapeTbl, replaceChar] using ih

theorem escapeTbl_append (tbl : List (Char × List Char)) (xs ys : List Char) :
    escapeTbl tbl (xs ++ ys) = escapeTbl tbl xs ++ escapeTbl tbl ys := by
  induction tbl generalizing xs ys with
  | nil => rfl
  | cons e t ih =>
    show escapeTbl t (replaceChar e.1 e.2 (xs ++ ys)) = _
    rw [replaceChar_append]
    exact ih _ _

theorem escape_append (xs ys : List Char) : escape (xs ++ ys) = escape xs ++ escape ys :=
  escapeTbl_append _ _ _

theorem escape_cons (c : Char) (l : List Char) :
    escape (c :: l) = escape [c] ++ escape l := by
  simpa using escape_append [c] l

theorem escape_single (c : Char) : escape [c] = escapeChar c := by
  by_cases h1 : c = '\\'
  · subst h1; decide
  by_cases h2 : c = '{'
  · subst h2; decide
  by_cases h3 : c = '}'
  · subst h3; decide
  by_cases h4 : c = '_'
  · subst h4; decide
  by_cases h5 : c = '^'
  · subst h5; decide
  by_cases h6 : c = '~'
  · subst h6; decide
  by_cases h7 : c = '&'
  · subst h7; decide
  by_cases h8 : c = '$'
  · subst h8; decide
  by_cases h9 : c = '#'
  · subst h9; decide
  by_cases h10 : c = '%'
  · subst h10; decide
  by_cases h11 : c = '\u201c'
  · subst h11; decide
  by_cases h12 : c = '\u201d'
  · subst h12; decide
  by_cases h13 : c = '\u2018'
  · subst h13; decide
  by_cases h14 : c = '\u2019'
  · subst h14; decide
  by_cases h15 : c = '\u2014'
  · subst h15; decide
  by_cases h16 : c = '\u2013'
  · subst h16; decide
  by_cases h17 : c = '\u2026'
  · subst h17; decide
  simp [escape, escapeTbl, replacementTable, replaceChar, escapeChar,
    h1, h2, h3, h4, h5, h6, h7, h8, h9, h10, h11, h12, h13, h14, h15, h16, h17]

theorem escapeChar_facts (c : Char) :
    escapeChar c ≠ [] ∧ pairsOK (escapeChar c) = true
    ∧ (escapeChar c).head? ≠ some '$' ∧ (escapeChar c).getLast? ≠ some '\\' := by
  by_cases h1 : c = '\\'
  · subst h1; decide
  by_cases h2 : c = '{'
  · subst h2; decide
  by_cases h3 : c = '}'
  · subst h3; decide
  by_cases h4 : c = '_'
  · subst h4; decide
  by_cases h5 : c = '^'
  · subst h5; decide
  by_cases h6 : c = '~'
  · subst h6; decide
  by_cases h7 : c = '&'
  · subst h7; decide
  by_cases h8 : c = '$'
  · subst h8; decide
  by_cases h9 : c = '#'
  · subst h9; decide
  by_cases h10 : c = '%'
  · subst h10; decide
  by_cases h11 : c = '“'
  · subst h11; decide
  by_cases h12 : c = '”'
  · subst h12; decide
  by_cases h13 : c = '‘'
  · subst h13; decide
  by_cases h14 : c = '’'
  · subst h14; decide
  by_cases h15 : c = '—'
  · subst h15; decide
  by_cases h16 : c = '–'
  · subst h16; decide
  by_cases h17 : c = '…'
  · subst h17; decide
  have hc : escapeChar c = [c] := by
    simp [escapeChar, h1, h2, h3, h4, h5, h6, h7, h8, h9, h10, h11, h12, h13, h14,
      h15, h16, h17]
  rw [hc]
  refine ⟨by simp, rfl, by simpa using h8, by simpa using h1⟩

theorem pairsOK_tail (a : Char) (l : List Char) (h : pairsOK (a :: l) = true) :
    pairsOK l = true := by
  cases l with
  | nil => rfl
  | cons b r => exact (Bool.and_eq_true_iff.mp h).2

theorem pairsOK_right (l r : List Char) (h : pairsOK (l ++ r) = true) :
    pairsOK r = true := by
  induction l with
  | nil => simpa using h
  | cons a t ih => exact ih (pairsOK_tail a (t ++ r) h)

theorem pairsOK_left (l r : List Char) (h : pairsOK (l ++ r) = true) :
    pairsOK l = true := by
  induction l with
  | nil => rfl
  | cons a t ih =>
    cases t with
    | nil => rfl
    | cons b t' =>
      have h' := Bool.and_eq_true_iff.mp h
      have hrec := ih h'.2
      show (escRelB a b && pairsOK (b :: t')) = true
      exact Bool.and_eq_true_iff.mpr ⟨h'.1, hrec⟩

theorem pairsOK_mid (p m s : List Char) (h : pairsOK (p ++ (m ++ s)) = true) :
    pairsOK m = true :=
  pairsOK_left m s (pairsOK_right p (m ++ s) h)

theorem pairsOK_glue (l r : List Char) (hl : pairsOK l = true) (hr : pairsOK r = true)
    (hj : ∀ a b, l.getLast? = some a → r.head? = some b → escRelB a b = true) :
    pairsOK (l ++ r) = true := by
  induction l with
  | nil => simpa using hr
  | cons a t ih =>
    cases t with
    | nil =>
      cases r with
      | nil => rfl
      | cons b r' =>
        have hab := hj a b rfl rfl
        show (escRelB a b && pairsOK (b :: r')) = true
        exact Bool.and_eq_true_iff.mpr ⟨hab, hr⟩
    | cons x t' =>
      have h' := Bool.and_eq_true_iff.mp hl
      have ihh := ih h'.2 (fun y z hy hz => hj y z (by rw [List.getLast?_cons_cons]; exact hy) hz)
      show (escRelB a x && pairsOK ((x :: t') ++ r)) = true
      exact Bool.and_eq_true_iff.mpr ⟨h'.1, ihh⟩

theorem head?_append_left {α : Type} (l r : List α) (c : α) (h : l.head? = some c) :
    (l ++ r).head? = some c := by
  cases l with
  | nil => simp at h
  | cons x t => simpa using h

theorem escape_facts (l : List Char) :
    pairsOK (escape l) = true ∧ (escape l).head? ≠ some '$'
    ∧ (escape l).getLast? ≠ some '\\' := by
  induction l with
  | nil =>
    rw [show escape [] = [] from escapeTbl_nil _]
    exact ⟨rfl, by simp, by simp⟩
  | cons c t ih =>
    rw [escape_cons, escape_single]
    obtain ⟨hne, hp, hh, hl⟩ := escapeChar_facts c
    obtain ⟨ihp, ihh, ihl⟩ := ih
    refine ⟨?_, ?_, ?_⟩
    · refine pairsOK_glue _ _ hp ihp ?_
      intro a b ha hb
      have hA : (a == '\\') = false := by
        refine beq_eq_false_iff_ne.mpr (fun he => hl ?_)
        rw [← he]
        exact ha
      have hB : (b == '$') = false := by
        refine beq_eq_false_iff_ne.mpr (fun he => ihh ?_)
        rw [← he]
        exact hb
      simp [escRelB, hA, hB]
    · cases hc : escapeChar c with
      | nil => exact absurd hc hne
      | cons x xs =>
        intro he
        apply hh
        rw [hc]
        simpa using he
    · cases he : escape t with
      | nil =>
        rw [List.append_nil]
        exact hl
      | cons x xs =>
        rw [List.getLast?_append]
        intro hcon
        apply ihl
        rcases hx : (x :: xs).getLast? with _ | y
        · have hsome : (x :: xs).getLast?.isSome := List.getLast?_isSome.mpr (by simp)
          rw [hx] at hsome
          simp at hsome
        · rw [he, hx]
          rw [hx] at hcon
          have hors : (some y).or (escapeChar c).getLast? = some y := rfl
          rw [hors] at hcon
          exact hcon

theorem splitDN_ne (l : List Char) : splitDoubleNewline l ≠ [] := by
  induction l using splitDoubleNewline.induct
  case case1 => simp [splitDoubleNewline]
  case case2 => simp [splitDoubleNewline]
  case case3 c rest hnp hm ih => cases hh : splitDoubleNewline rest <;> simp [splitDoubleNewline, hh]
  case case4 c rest hnp h t hm ih => cases hh : splitDoubleNewline rest <;> simp [splitDoubleNewline, hh]

theorem joinParas_splitDN (l : List Char) : joinParas (splitDoubleNewline l) = l := by
  induction l using splitDoubleNewline.induct
  case case1 => rfl
  case case2 rest ih =>
    have hne := splitDN_ne rest
    rcases hsp : splitDoubleNewline rest with _ | ⟨h, t⟩
    · exact absurd hsp hne
    · show joinParas ([] :: splitDoubleNewline rest) = '\n' :: '\n' :: rest
      rw [hsp]
      show '\n' :: '\n' :: joinParas (h :: t) = '\n' :: '\n' :: rest
      rw [← hsp, ih]
  case case3 c rest hnp hm ih => exact absurd hm (splitDN_ne rest)
  case case4 c rest hnp h t hm ih =>
    have he : splitDoubleNewline (c :: rest) = (c :: h) :: t := by
      simp [splitDoubleNewline, hm]
    rw [he]
    rw [hm] at ih
    cases t with
    | nil =>
      show c :: h = c :: rest
      have : h = rest := by simpa [joinParas] using ih
      rw [this]
    | cons b bs =>
      show (c :: h) ++ '\n' :: '\n' :: joinParas (b :: bs) = c :: rest
      have : h ++ '\n' :: '\n' :: joinParas (b :: bs) = rest := ih
      rw [← this]
      rfl

theorem blockIn (bs : List (List Char)) (b : List Char) (hb : b ∈ bs) :
    (∃ t, joinParas bs = b ++ t) ∨ (∃ p t, joinParas bs = p ++ '\n' :: (b ++ t)) := by
  induction bs with
  | nil => simp at hb
  | cons h bs ih =>
    rcases List.mem_cons.mp hb with rfl | hb'
    · cases bs with
      | nil => exact Or.inl ⟨[], by simp [joinParas]⟩
      | cons b2 t2 => exact Or.inl ⟨'\n' :: '\n' :: joinParas (b2 :: t2), rfl⟩
    · have hbs : bs ≠ [] := by
        intro he
        rw [he] at hb'
        simp at hb'
      rcases List.exists_cons_of_ne_nil hbs with ⟨b2, t2, rfl⟩
      rcases ih hb' with ⟨t, ht⟩ | ⟨p, t, ht⟩
      · refine Or.inr ⟨h ++ ['\n'], t, ?_⟩
        show h ++ '\n' :: '\n' :: joinParas (b2 :: t2) = h ++ ['\n'] ++ '\n' :: (b ++ t)
        rw [ht]
        simp
      · refine Or.inr ⟨h ++ '\n' :: '\n' :: p, t, ?_⟩
        show h ++ '\n' :: '\n' :: joinParas (b2 :: t2) = h ++ '\n' :: '\n' :: p ++ '\n' :: (b ++ t)
        rw [ht]
        simp

theorem blockFacts (s b : List Char) (h1 : pairsOK s = true) (h2 : s.head? ≠ some '$')
    (hb : b ∈ splitDoubleNewline s) :
    pairsOK b = true ∧ b.head? ≠ some '$' := by
  have hj := joinParas_splitDN s
  rcases blockIn _ b hb with ⟨t, ht⟩ | ⟨p, t, ht⟩
  · rw [hj] at ht
    subst ht
    refine ⟨pairsOK_left _ _ h1, ?_⟩
    cases b with
    | nil => simp
    | cons x b' =>
      intro he
      exact h2 (by simpa using he)
  · rw [hj] at ht
    subst ht
    constructor
    · have := pairsOK_right p _ h1
      exact pairsOK_left _ _ (pairsOK_tail _ _ this)
    · cases b with
      | nil => simp
      | cons x b' =>
        intro he
        have hx : x = '$' := by simpa using he
        subst hx
        have := pairsOK_right p _ h1
        have hrel := (Bool.and_eq_true_iff.mp this).1
        revert hrel
        decide

theorem dropWhile_head_not_dollar (l : List Char) (h1 : pairsOK l = true)
    (h2 : l.head? ≠ some '$') : (l.dropWhile isPyWs).head? ≠ some '$' := by
  induction l with
  | nil => simp [List.dropWhile]
  | cons c t ih =>
    by_cases hw : isPyWs c = true
    · rw [List.dropWhile_cons_of_pos hw]
      refine ih (pairsOK_tail _ _ h1) ?_
      cases t with
      | nil => simp
      | cons d t' =>
        intro he
        have hd : d = '$' := by simpa using he
        subst hd
        have hrel := (Bool.and_eq_true_iff.mp h1).1
        have hc : (c == '\\') = true := by
          have := Bool.and_eq_true_iff.mp hrel
          rcases Bool.or_eq_true_iff.mp this.2 with hx | hx
          · simp at hx
          · exact hx
        have : c = '\\' := eq_of_beq hc
        subst this
        simp [isPyWs] at hw
    · rw [List.dropWhile_cons_of_neg (by simp [hw])]
      simpa using h2

theorem dropWhile_decomp (p : Char → Bool) (l : List Char) :
    ∃ u, l = u ++ l.dropWhile p :=
  ⟨l.takeWhile p, (List.takeWhile_append_dropWhile p l).symm⟩

theorem pyStrip_decomp (l : List Char) : ∃ u v, l = u ++ (pyStrip l ++ v) := by
  obtain ⟨u, hu⟩ := dropWhile_decomp isPyWs l
  set m := l.dropWhile isPyWs with hm
  obtain ⟨w, hw⟩ := dropWhile_decomp isPyWs m.reverse
  have hms : m = pyStrip l ++ w.reverse := by
    have : m.reverse.reverse = (w ++ m.reverse.dropWhile isPyWs).reverse := by
      rw [← hw]
    rw [List.reverse_reverse, List.reverse_append] at this
    exact this
  rw [hms] at hu
  exact ⟨u, w.reverse, hu⟩

theorem pyStrip_head_aux (l : List Char) (hne : pyStrip l ≠ []) :
    (pyStrip l).head? = (l.dropWhile isPyWs).head? := by
  obtain ⟨w, hw⟩ := dropWhile_decomp isPyWs (l.dropWhile isPyWs).reverse
  have hms : l.dropWhile isPyWs = pyStrip l ++ w.reverse := by
    have : (l.dropWhile isPyWs).reverse.reverse
        = (w ++ (l.dropWhile isPyWs).reverse.dropWhile isPyWs).reverse := by
      rw [← hw]
    rw [List.reverse_reverse, List.reverse_append] at this
    exact this
  rcases hx : pyStrip l with _ | ⟨x, r⟩
  · exact absurd hx hne
  · rw [hms, hx]
    simp

theorem stripFacts (b : List Char) (h1 : pairsOK b = true) (h2 : b.head? ≠ some '$') :
    pairsOK (pyStrip b) = true ∧ (pyStrip b).head? ≠ some '$' := by
  obtain ⟨u, v, huv⟩ := pyStrip_decomp b
  constructor
  · exact pairsOK_mid u _ v (by rw [← huv]; exact h1)
  · by_cases hne : pyStrip b = []
    · simp [hne]
    · rw [pyStrip_head_aux b hne]
      exact dropWhile_head_not_dollar b h1 h2

theorem listStarts_dollar (ps t : List Char) (h2 : t.head? ≠ some '$') :
    listStarts ('$' :: ps) t = false := by
  cases t with
  | nil => rfl
  | cons c r =>
    have hc : ('$' == c) = false := by
      refine beq_eq_false_iff_ne.mpr (fun he => h2 ?_)
      rw [← he]
      rfl
    simp [listStarts, hc]

theorem listStarts_bs (c : Char) (hc : escS.contains c = false) (ps t : List Char)
    (h1 : pairsOK t = true) : listStarts ('\\' :: c :: ps) t = false := by
  cases t with
  | nil => rfl
  | cons a r =>
    cases r with
    | nil => simp [listStarts]
    | cons d r' =>
      by_cases ha : a = '\\'
      · subst ha
        by_cases hd : d = c
        · subst hd
          exfalso
          have hrel := (Bool.and_eq_true_iff.mp h1).1
          have := (Bool.and_eq_true_iff.mp hrel).1
          rcases Bool.or_eq_true_iff.mp this with hx | hx
          · simp at hx
          · rw [hx] at hc
            simp at hc
        · have : (c == d) = false := beq_eq_false_iff_ne.mpr (fun he => hd he.symm)
          simp [listStarts, this]
      · have : ('\\' == a) = false := beq_eq_false_iff_ne.mpr (fun he => ha he.symm)
        simp [listStarts, this]

theorem delim_false (t : List Char) (h1 : pairsOK t = true) (h2 : t.head? ≠ some '$') :
    explicitDelimCheck t = false := by
  have hd : ∀ ps, listStarts ('$' :: ps) t = false := fun ps => listStarts_dollar ps t h2
  have hbb : ∀ ps, listStarts ('\\' :: 'b' :: ps) t = false :=
    fun ps => listStarts_bs 'b' (by decide) ps t h1
  have hbk : ∀ ps, listStarts ('\\' :: '[' :: ps) t = false :=
    fun ps => listStarts_bs '[' (by decide) ps t h1
  have e1 : listStarts "$$".data t = false := hd _
  have e2 : listStarts "\\[".data t = false := hbk _
  have e3 : listStarts "\\begin\x7bequation\x7d".data t = false := hbb _
  have e4 : listStarts "\\begin\x7bequation*\x7d".data t = false := hbb _
  have e5 : listStarts "\\begin\x7balign\x7d".data t = false := hbb _
  have e6 : listStarts "\\begin\x7balign*\x7d".data t = false := hbb _
  have e7 : listStarts "\\begin\x7bgather\x7d".data t = false := hbb _
  have e8 : listStarts "\\begin\x7bgather*\x7d".data t = false := hbb _
  have e9 : listStarts "\\begin\x7bmultline\x7d".data t = false := hbb _
  have e10 : listStarts "\\begin\x7bmultline*\x7d".data t = false := hbb _
  have e11 : listStarts "\\begin\x7bdisplaymath\x7d".data t = false := hbb _
  have e12 : listStarts "$$\n".data t = false := hd _
  simp [explicitDelimCheck, explicitEnvPairs, e1, e2, e3, e4, e5, e6, e7, e8, e9,
    e10, e11, e12]

/-- C10: every block that `generate_latex_document` passes to
`is_math_block` — the escaped text split on two consecutive newlines —
satisfies the post-escape invariant: every adjacent pair of characters
satisfies `escRelB` (every `$` is immediately preceded by a `\`, and
every `\` is followed by one of the continuation characters of the
inserted replacement strings) and the block does not start with `$`;
consequently its stripped form starts with none of `$$`, `\[`,
`\begin{`, and the classifier's explicit-delimiter step returns false
on it. -/
theorem c10_no_delimited_blocks (text : String) (b : List Char)
    (hb : b ∈ splitDoubleNewline (escape text.data)) :
    pairsOK b = true ∧ b.head? ≠ some '$'
    ∧ listStarts "$$".data (pyStrip b) = false
    ∧ listStarts "\\[".data (pyStrip b) = false
    ∧ listStarts "\\begin\x7b".data (pyStrip b) = false
    ∧ explicitDelimCheck (pyStrip b) = false := by
  obtain ⟨hp, hh, _⟩ := escape_facts text.data
  obtain ⟨hbp, hbh⟩ := blockFacts _ b hp hh hb
  obtain ⟨hsp, hsh⟩ := stripFacts b hbp hbh
  refine ⟨hbp, hbh, listStarts_dollar _ _ hsh, listStarts_bs '[' (by decide) _ _ hsp,
    listStarts_bs 'b' (by decide) _ _ hsp, delim_false _ hsp hsh⟩

theorem c10_no_delimited_blocks_witness :
    pairsOK ['a', '\\', '$', 'b'] = true
    ∧ explicitDelimCheck (pyStrip ['a', '\\', '$', 'b']) = false :=
  ⟨(c10_no_delimited_blocks "a$b" ['a', '\\', '$', 'b'] (by decide)).1,
   (c10_no_delimited_blocks "a$b" ['a', '\\', '$', 'b'] (by decide)).2.2.2.2.2⟩

theorem c6_amended_witness : isMathBlockS "a = 1\nb = 2\nc = 3\nd\ne\nf" = false := by
  have h := c6_amended "a = 1\nb = 2\nc = 3\nd\ne\nf"
    (pyStrip "a = 1\nb = 2\nc = 3\nd\ne\nf".data)
    (splitNl (pyStrip "a = 1\nb = 2\nc = 3\nd\ne\nf".data)) 6 12 rfl rfl (by decide)
    (by decide) (by decide) (by decide) (by decide) (by decide) (by decide) (by decide)
    (by decide)
  rw [h]
  decide
